import Mathlib

set_option maxHeartbeats 1000000

/-
Verification of the changelog parser of qgis-plugin-package-ci
(src/qgis_plugin_package_ci/changelog.py).

The Python module parses a "Keep a Changelog" document with a single
regular expression (CHANGELOG_REGEXP, applied with re.findall and the
MULTILINE | DOTALL flags), wraps each resulting 8-tuple of capture
groups in a VersionNote named tuple, and offers two queries on the
resulting ChangeLog: find(tag) and format_last_items(count).

Python's re.findall returns, for a pattern with several groups, one
tuple of group strings per match, with the empty string standing for a
group that did not participate; the Python code treats None and "" the
same (both falsy), so the embedding uses String fields with "" for an
absent group.
-/

/-- ASCII fragment of Python's whitespace class used by the regex
metacharacter and by str.strip: space, tab, newline, carriage return,
vertical tab and form feed. -/
def isPySpace (c : Char) : Bool :=
  c = ' ' || c = '\t' || c = '\n' || c = '\r' || c = '\x0b' || c = '\x0c'

/-- Character class of the date token in the regex: digits, dash, slash. -/
def isDateChar (c : Char) : Bool :=
  c.isDigit || c = '-' || c = '/'

/-- Character class of prerelease and build identifiers in the regex:
digits, ASCII letters, dash. -/
def isIdChar (c : Char) : Bool :=
  c.isDigit || c.isAlpha || c = '-'

/-- Python str.strip over the modelled whitespace class. -/
def pyStrip (s : String) : String :=
  ⟨((s.data.dropWhile isPySpace).reverse.dropWhile isPySpace).reverse⟩

/-- VersionNote named tuple of changelog.py: one 8-tuple of regular
expression capture groups, positionally (major, minor, patch, url,
prerelease, separator, date, text_raw).  A group that did not
participate in the match is the empty string. -/
structure VersionNote where
  major : String
  minor : String
  patch : String
  url : String := ""
  prerelease : String := ""
  separator : String := ""
  date : String := ""
  text_raw : String := ""
deriving DecidableEq, Repr

/-- VersionNote.text: text_raw stripped of whitespace at both ends,
none when text_raw is falsy (empty). -/
def VersionNote.text (v : VersionNote) : Option String :=
  if v.text_raw ≠ "" then some (pyStrip v.text_raw) else none

/-- VersionNote.is_prerelease: true iff the prerelease group is
non-empty (truthy). -/
def VersionNote.is_prerelease (v : VersionNote) : Bool :=
  v.prerelease ≠ ""

/-- VersionNote.version: "major.minor.patch", suffixed with
"-prerelease" when the prerelease group is truthy. -/
def VersionNote.version (v : VersionNote) : String :=
  if v.prerelease ≠ "" then
    v.major ++ "." ++ v.minor ++ "." ++ v.patch ++ "-" ++ v.prerelease
  else
    v.major ++ "." ++ v.minor ++ "." ++ v.patch

/-- ChangeLog: the ordered sequence of matched tuples, in document
order. -/
structure ChangeLog where
  versions : List VersionNote
deriving DecidableEq, Repr

/-- ChangeLog.empty: length equals zero. -/
def ChangeLog.empty (cl : ChangeLog) : Bool :=
  cl.versions.length == 0

/-- ChangeLog.find: None when empty; the first tuple for the sentinel
tag "latest"; otherwise the first tuple whose version string equals
the tag, or None. -/
def ChangeLog.find (cl : ChangeLog) (tag : String) : Option VersionNote :=
  if cl.empty then none
  else if tag = "latest" then cl.versions.head?
  else cl.versions.find? (fun v => v.version == tag)

/-- One block written by the loop body of ChangeLog.format_last_items:
the header line, the stripped body when truthy, and a closing blank
line. -/
def versionBlock (v : VersionNote) : String :=
  "Version " ++ v.version ++ ":\n" ++
    (match v.text with
     | some t => t
     | none => "") ++ "\n\n"

/-- Concatenation of rendered blocks, in order. -/
def renderBlocks : List VersionNote → String
  | [] => ""
  | v :: rest => versionBlock v ++ renderBlocks rest

/-- The loop of ChangeLog.format_last_items: emit the block for the
current entry, increment the counter, and stop as soon as the counter
reaches count.  The counter comparison is on Python integers, hence
Int. -/
def formatLoop (count : Int) : List VersionNote → Nat → String
  | [], _ => ""
  | v :: rest, soFar =>
    if (soFar : Int) + 1 ≥ count then versionBlock v
    else versionBlock v ++ formatLoop count rest (soFar + 1)

/-- ChangeLog.format_last_items: "" when empty, otherwise a leading
newline followed by the emitted blocks. -/
def ChangeLog.format_last_items (cl : ChangeLog) (count : Int) : String :=
  if cl.empty then "" else "\n" ++ formatLoop count cl.versions 0

/-
Model of re.findall(CHANGELOG_REGEXP, content, re.MULTILINE | re.DOTALL)
for the pattern of changelog.py line 45 (spaces inserted here so that
the comment stays a comment):

  (?<=##) \s* \[* (v?0|[1-9]\d*) \. (0|[1-9]\d*) \. (0|[1-9]\d*) \]?
  (\(.*\))? (?:-((?:0|[1-9]\d*|\d*[a-zA-Z-][0-9a-zA-Z-]*)
  (?:\.(?:0|[1-9]\d*|\d*[a-zA-Z-][0-9a-zA-Z-]*))*))?
  (?:\+([0-9a-zA-Z-]+(?:\.[0-9a-zA-Z-]+)*))? \]* \s-\s*
  ([\d\- /]{10}) (.*?) (?=##|\Z)

(the date class is written here with an extra space: in the source it
is digits, backslash-dash, slash, with no space).

MULTILINE is inert (no anchors in the pattern); DOTALL makes the two
dots match newlines.  Where a greedy subexpression is followed by a
character it can never absorb (the whitespace run, the bracket runs,
the three numeric components, the date token), maximal munch is exact
and the model is written deterministically; where backtracking can
change the outcome (the parenthesised url group, the prerelease and
build identifier sequences), the model enumerates the candidate
matches of the subexpression in the engine's preference order (greedy,
leftmost alternative first) and takes the first candidate under which
the rest of the pattern succeeds.
-/

/-- Greedy candidate splits of a repetition over a scanned run: the
prefixes of the run, longest first, of length at least minLen, each
paired with the remaining input. -/
def greedySplits (run rest : List Char) (minLen : Nat) : List (List Char × List Char) :=
  (((List.range (run.length + 1)).filter (fun k => minLen ≤ k)).reverse).map
    (fun k => (run.take k, run.drop k ++ rest))

/-- The numeric alternative (0|[1-9]\d*): a lone zero, or a nonzero
digit followed by the maximal digit run (the run is maximal because
every continuation of the pattern starts with a non-digit). -/
def matchNum : List Char → Option (String × List Char)
  | [] => none
  | c :: r =>
    if c = '0' then some ("0", r)
    else if c.isDigit then
      some (⟨c :: r.takeWhile Char.isDigit⟩, r.dropWhile Char.isDigit)
    else none

/-- The major group (v?0|[1-9]\d*): the letter v is only admitted by
the first alternative, immediately followed by the digit zero, and is
captured as part of the group. -/
def matchMajor (s : List Char) : Option (String × List Char) :=
  if s.take 2 = ['v', '0'] then some ("v0", s.drop 2) else matchNum s

/-- One literal expected character. -/
def expectChar (c : Char) : List Char → Option (List Char)
  | [] => none
  | x :: r => if x = c then some r else none

/-- Candidates of one prerelease identifier
(0|[1-9]\d*|\d*[a-zA-Z-][0-9a-zA-Z-]*), in the engine's preference
order: the alternatives left to right, and inside an alternative the
greedy repetitions longest first.  In the third alternative \d* must
take the whole digit run, since a digit can never satisfy the
following [a-zA-Z-]. -/
def idCands (s : List Char) : List (String × List Char) :=
  let alt1 : List (String × List Char) :=
    match s with
    | '0' :: r => [("0", r)]
    | _ => []
  let alt2 : List (String × List Char) :=
    match s with
    | [] => []
    | c :: r =>
      if c.isDigit && c != '0' then
        (greedySplits (r.takeWhile Char.isDigit) (r.dropWhile Char.isDigit) 0).map
          (fun p => (⟨c :: p.1⟩, p.2))
      else []
  let alt3 : List (String × List Char) :=
    let ds := s.takeWhile Char.isDigit
    match s.dropWhile Char.isDigit with
    | [] => []
    | c :: r2 =>
      if c.isAlpha || c = '-' then
        (greedySplits (r2.takeWhile isIdChar) (r2.dropWhile isIdChar) 0).map
          (fun p => (⟨ds ++ c :: p.1⟩, p.2))
      else []
  alt1 ++ alt2 ++ alt3

/-- Candidates of the greedy loop (?:\.ID)* for the prerelease, more
iterations preferred; the fuel bounds the recursion and is ample when
instantiated with the input length, since every iteration consumes at
least two characters. -/
def loopCands : Nat → List Char → List (String × List Char)
  | 0, s => [("", s)]
  | fuel + 1, s =>
    (match s with
     | '.' :: t =>
       (idCands t).flatMap (fun p =>
         (loopCands fuel p.2).map (fun q => ("." ++ p.1 ++ q.1, q.2)))
     | _ => []) ++ [("", s)]

/-- Candidates of the full prerelease sequence ID(?:\.ID)*. -/
def seqCands (s : List Char) : List (String × List Char) :=
  (idCands s).flatMap (fun p =>
    (loopCands p.2.length p.2).map (fun q => (p.1 ++ q.1, q.2)))

/-- Candidates of the optional prerelease group (?:-(ID(?:\.ID)*))?:
when a dash follows, every way of matching the identifier sequence (in
preference order, the dash consumed but not captured), then skipping
the group; otherwise only skipping. -/
def preCands (s : List Char) : List (String × List Char) :=
  match s with
  | '-' :: t => seqCands t ++ [("", s)]
  | _ => [("", s)]

/-- Candidates of one build identifier [0-9a-zA-Z-]+, greedy, longest
first, at least one character. -/
def bidCands (s : List Char) : List (String × List Char) :=
  (greedySplits (s.takeWhile isIdChar) (s.dropWhile isIdChar) 1).map
    (fun p => (⟨p.1⟩, p.2))

/-- Candidates of the greedy loop (?:\.[0-9a-zA-Z-]+)* for the build
metadata. -/
def bloopCands : Nat → List Char → List (String × List Char)
  | 0, s => [("", s)]
  | fuel + 1, s =>
    (match s with
     | '.' :: t =>
       (bidCands t).flatMap (fun p =>
         (bloopCands fuel p.2).map (fun q => ("." ++ p.1 ++ q.1, q.2)))
     | _ => []) ++ [("", s)]

/-- Candidates of the optional build group
(?:\+([0-9a-zA-Z-]+(?:\.[0-9a-zA-Z-]+)*))?. -/
def buildCands (s : List Char) : List (String × List Char) :=
  match s with
  | '+' :: t =>
    ((bidCands t).flatMap (fun p =>
      (bloopCands p.2.length p.2).map (fun q => (p.1 ++ q.1, q.2)))) ++ [("", s)]
  | _ => [("", s)]

/-- Candidates of the optional url group (\(.*\))?: when a parenthesis
opens, the DOTALL dot-star tries every closing parenthesis from the
last to the first (capturing the parentheses), then the group is
skipped; otherwise only skipping. -/
def urlCands (s : List Char) : List (String × List Char) :=
  match s with
  | '(' :: t =>
    ((((List.range t.length).filter
        (fun i => (t.drop i).head? = some ')')).reverse).map
      (fun i => (⟨'(' :: (t.take i ++ [')'])⟩, t.drop (i + 1)))) ++ [("", s)]
  | _ => [("", s)]

/-- The lazy body (.*?)(?=##|\Z) under DOTALL: the shortest prefix
after which two hash marks follow or the input ends. -/
def scanBody : List Char → String × List Char
  | [] => ("", [])
  | '#' :: '#' :: r => ("", '#' :: '#' :: r)
  | c :: r =>
    let p := scanBody r
    (⟨c :: p.1.data⟩, p.2)

/-- The deterministic tail, a whitespace, dash, whitespace run, then
the ten-character date token over isDateChar, followed by the lazy
body: one whitespace, a literal dash, a maximal whitespace run (exact,
since the date class holds no whitespace), exactly ten date-class
characters, then the body. -/
def matchFixedTail (s : List Char) : Option (String × String × List Char) :=
  match s with
  | [] => none
  | c :: r =>
    if isPySpace c then
      match r with
      | '-' :: r2 =>
        let r3 := r2.dropWhile isPySpace
        let d := r3.take 10
        if d.length = 10 && d.all isDateChar then
          let p := scanBody (r3.drop 10)
          some (⟨d⟩, p.1, p.2)
        else none
      | _ => none
    else none

/-- The pattern tail after the patch group:
\]? (url)? (prerelease)? (build)? \]* \s-\s* date body, with the
backtracking groups tried in preference order, nested left to right.
Returns (url, prerelease, build, date, body, rest). -/
def matchTail (s : List Char) :
    Option (String × String × String × String × String × List Char) :=
  let s1 := match s with
    | ']' :: t => t
    | _ => s
  (urlCands s1).findSome? (fun u =>
    (preCands u.2).findSome? (fun p =>
      (buildCands p.2).findSome? (fun b =>
        (matchFixedTail (b.2.dropWhile (fun c => c = ']'))).map
          (fun ft => (u.1, p.1, b.1, ft.1, ft.2.1, ft.2.2)))))

/-- One attempted match at a scan position whose lookbehind already
succeeded: \s* (exact maximal munch, the next character is never
whitespace), \[* (likewise), then the three dot-separated numeric
groups and the tail.  Returns the capture tuple and the unconsumed
input after the match. -/
def matchAt (s : List Char) : Option (VersionNote × List Char) :=
  (matchMajor ((s.dropWhile isPySpace).dropWhile (fun c => c = '['))).bind (fun m1 =>
  (expectChar '.' m1.2).bind (fun r2 =>
  (matchNum r2).bind (fun m2 =>
  (expectChar '.' m2.2).bind (fun r4 =>
  (matchNum r4).bind (fun m3 =>
  (matchTail m3.2).map (fun t =>
    ({ major := m1.1, minor := m2.1, patch := m3.1, url := t.1,
       prerelease := t.2.1, separator := t.2.2.1, date := t.2.2.2.1,
       text_raw := t.2.2.2.2.1 }, t.2.2.2.2.2)))))))

/-- The re.findall scan: walk the input one character at a time
carrying the two previously seen characters for the (?<=##)
lookbehind; where the lookbehind holds, attempt a match, and on
success resume scanning at the match end (every match consumes at
least one character, so the empty-match special case of the scanner
never arises).  The fuel bounds the recursion and is ample when
instantiated with one more than the input length. -/
def findallAux : Nat → Char → Char → List Char → List VersionNote
  | 0, _, _, _ => []
  | fuel + 1, p1, p2, s =>
    match s with
    | [] => []
    | c :: rest =>
      if p1 = '#' ∧ p2 = '#' then
        match matchAt s with
        | some (vn, rest') =>
          let consumed := s.take (s.length - rest'.length)
          let lastTwo := consumed.reverse.take 2
          let q2 := lastTwo.head?.getD '\x00'
          let q1 := ((lastTwo.drop 1).head?).getD '\x00'
          vn :: findallAux fuel q1 q2 rest'
        | none => findallAux fuel p2 c rest
      else findallAux fuel p2 c rest

/-- re.findall(CHANGELOG_REGEXP, content, re.MULTILINE | re.DOTALL):
scan from the start of the document, with sentinel previous characters
that can never satisfy the lookbehind. -/
def pyFindall (content : String) : List VersionNote :=
  findallAux (content.length + 1) '\x00' '\x00' content.data

/-- ChangeLog.parse: the ordered sequence of findall tuples over the
document text (the file read performed by the Python classmethod is
outside the embedding; its argument is the text it reads). -/
def ChangeLog.parse (content : String) : ChangeLog :=
  ⟨pyFindall content⟩

/-- Concrete document of the prerelease scenario: a bracketed
three-component header with prerelease suffix and slash date, followed
by three bullet lines. -/
def docBeta : String :=
  "## [10.1.0-beta1] - 2021/02/08\n\n- Add new feature\n- Fix bug\n- Remove old code\n"

/-- Concrete document with an Unreleased section followed by one
released section. -/
def docUnreleased : String :=
  "## Unreleased\n\n- Upcoming\n\n## 10.0.1 - 2021/01/01\n\n- End of year version\n"

/-- Well-formed header without a v prefix. -/
def docPlainOne : String := "## 1.0.0 - 2021-01-01\n"

/-- The same header with the v prefix on a nonzero major. -/
def docVeeOne : String := "## v1.0.0 - 2021-01-01\n"

/-- A v-prefixed header with major zero. -/
def docVeeZero : String := "## v0.1.0 - 2021-01-01\n"

/-- Another v-prefixed header with major zero. -/
def docVeeZeroB : String := "## v0.2.3 - 2021-01-01\n"

/-- A plain numeric header with a body line. -/
def docNumeric : String := "## 3.2.1 - 2020-12-31\nstuff\n"

/-- A version string always contains a dot, so it can never be the
sentinel tag "latest". -/
theorem version_ne_latest (v : VersionNote) : v.version ≠ "latest" := by
  intro h
  have hdot : '.' ∈ v.version.data := by
    unfold VersionNote.version
    split <;>
      simp [String.data_append, show ("." : String).data = ['.'] from rfl]
  rw [h] at hdot
  exact absurd hdot (by decide)

/-- Membership-based specification of find: looking up the version
string of any entry succeeds and returns an entry carrying exactly
that version string. -/
theorem find_of_mem (cl : ChangeLog) (vn : VersionNote)
    (h : vn ∈ cl.versions) :
    ∃ w, cl.find vn.version = some w ∧ w.version = vn.version := by
  have hne : cl.versions ≠ [] := List.ne_nil_of_mem h
  have hemp : cl.empty = false := by
    simp [ChangeLog.empty, List.length_eq_zero, hne]
  unfold ChangeLog.find
  rw [hemp]
  simp only [Bool.false_eq_true, if_false]
  rw [if_neg (version_ne_latest vn)]
  have hsome : (cl.versions.find? (fun v => v.version == vn.version)).isSome := by
    rw [List.find?_isSome]
    exact ⟨vn, h, by simp⟩
  obtain ⟨w, hw⟩ := Option.isSome_iff_exists.mp hsome
  refine ⟨w, hw, ?_⟩
  simpa using List.find?_some hw

/-- C1: for every document text and every entry the pattern matcher
extracts from it, calling find on the parsed ChangeLog with that
entry's version string returns a VersionNote whose version property
equals that version string exactly. -/
theorem claim1_find_returns_exact_version (content : String) (vn : VersionNote)
    (h : vn ∈ (ChangeLog.parse content).versions) :
    ∃ w, (ChangeLog.parse content).find vn.version = some w ∧
      w.version = vn.version :=
  find_of_mem _ _ h

theorem claim1_witness :
    ∃ w, (ChangeLog.parse "## 2.0.0 - 2022/05/05\n- a\n").find "2.0.0" = some w ∧
      w.version = "2.0.0" :=
  claim1_find_returns_exact_version "## 2.0.0 - 2022/05/05\n- a\n"
    ⟨"2", "0", "0", "", "", "", "2022/05/05", "\n- a\n"⟩ (by decide)

/-- C2: on a non-empty ChangeLog, find with the sentinel "latest"
returns the same result as find with the first entry's own version
string. -/
theorem claim2_latest_eq_find_first (cl : ChangeLog) (v : VersionNote)
    (rest : List VersionNote) (h : cl.versions = v :: rest) :
    cl.find "latest" = cl.find v.version := by
  have hemp : cl.empty = false := by simp [ChangeLog.empty, h]
  have l1 : cl.find "latest" = some v := by
    unfold ChangeLog.find
    rw [hemp]
    simp [h]
  have l2 : cl.find v.version = some v := by
    unfold ChangeLog.find
    rw [hemp]
    simp only [Bool.false_eq_true, if_false]
    rw [if_neg (version_ne_latest v), h]
    simp [List.find?_cons_of_pos]
  rw [l1, l2]

theorem claim2_witness :
    (ChangeLog.mk [⟨"4", "1", "2", "", "rc1", "", "2023-03-03", "\n- n\n"⟩,
      ⟨"4", "1", "1", "", "", "", "2023-02-02", "\n- o\n"⟩]).find "latest" =
    (ChangeLog.mk [⟨"4", "1", "2", "", "rc1", "", "2023-03-03", "\n- n\n"⟩,
      ⟨"4", "1", "1", "", "", "", "2023-02-02", "\n- o\n"⟩]).find
        (VersionNote.version ⟨"4", "1", "2", "", "rc1", "", "2023-03-03", "\n- n\n"⟩) :=
  claim2_latest_eq_find_first _ _ _ rfl

/-- C7 as stated is refuted by the sentinel: on this one-entry
ChangeLog no entry's version string equals "latest", yet find "latest"
does not return none. -/
theorem claim7_counterexample :
    (∀ v ∈ (ChangeLog.mk [⟨"1", "0", "0", "", "", "", "2021-01-01", ""⟩]).versions,
      v.version ≠ "latest") ∧
    (ChangeLog.mk [⟨"1", "0", "0", "", "", "", "2021-01-01", ""⟩]).find "latest" ≠
      none := by
  decide

/-- C7 amended: find on an empty ChangeLog returns none, and find with
a tag other than the sentinel "latest" that matches no entry's version
string returns none; find is a total function, so absence is always
the empty result. -/
theorem claim7_find_absence (cl : ChangeLog) (tag : String) :
    (cl.versions = [] → cl.find tag = none) ∧
    (tag ≠ "latest" → (∀ v ∈ cl.versions, v.version ≠ tag) →
      cl.find tag = none) := by
  constructor
  · intro h
    unfold ChangeLog.find
    simp [ChangeLog.empty, h]
  · intro hlat hall
    unfold ChangeLog.find
    by_cases he : cl.empty
    · rw [if_pos he]
    · rw [if_neg he, if_neg hlat]
      rw [List.find?_eq_none]
      intro x hx
      simp [hall x hx]

theorem claim7_witness :
    (ChangeLog.mk []).find "1.2.3" = none ∧
    (ChangeLog.mk [⟨"2", "0", "0", "", "", "", "2021-01-01", ""⟩]).find "9.9.9" =
      none :=
  ⟨(claim7_find_absence ⟨[]⟩ "1.2.3").1 rfl,
   (claim7_find_absence ⟨[⟨"2", "0", "0", "", "", "", "2021-01-01", ""⟩]⟩
     "9.9.9").2 (by decide) (by decide)⟩

/-- The format loop with a counter still strictly below count emits
exactly the blocks of the remaining quota, in order. -/
theorem formatLoop_eq (count : Int) (l : List VersionNote) :
    ∀ soFar : Nat, (soFar : Int) < count →
      formatLoop count l soFar = renderBlocks (l.take (count - soFar).toNat) := by
  induction l with
  | nil => intro soFar h; simp [formatLoop, renderBlocks]
  | cons v rest ih =>
    intro soFar h
    unfold formatLoop
    by_cases hb : (soFar : Int) + 1 ≥ count
    · rw [if_pos hb]
      have hk : (count - soFar).toNat = 1 := by omega
      rw [hk]
      simp [renderBlocks]
    · rw [if_neg hb]
      have h2 : ((soFar + 1 : Nat) : Int) < count := by push_cast; omega
      rw [ih (soFar + 1) h2]
      have hk : (count - (soFar : Int)).toNat =
          (count - ((soFar + 1 : Nat) : Int)).toNat + 1 := by push_cast; omega
      rw [hk, List.take_succ_cons]
      simp [renderBlocks]

/-- On a non-empty ChangeLog and a positive count, format_last_items
is a leading newline followed by the blocks of the first count
entries. -/
theorem format_last_items_eq (cl : ChangeLog) (count : Int)
    (hne : cl.versions ≠ []) (hc : 1 ≤ count) :
    cl.format_last_items count =
      "\n" ++ renderBlocks (cl.versions.take count.toNat) := by
  have hemp : cl.empty = false := by
    simp [ChangeLog.empty, List.length_eq_zero, hne]
  unfold ChangeLog.format_last_items
  rw [hemp]
  simp only [Bool.false_eq_true, if_false]
  rw [formatLoop_eq count cl.versions 0 (by omega)]
  norm_num

/-- C5: for every non-empty ChangeLog and positive count,
format_last_items emits, in document order, one block per entry among
the first count entries, each block being the version header line, the
stripped body (the body line omitted entirely when the text is empty),
and a closing blank line, with a single leading newline before the
first block, stopping after count entries even if more remain. -/
theorem claim5_format_blocks (cl : ChangeLog) (count : Int)
    (hne : cl.versions ≠ []) (hc : 1 ≤ count) :
    cl.format_last_items count =
      "\n" ++ renderBlocks (cl.versions.take count.toNat) :=
  format_last_items_eq cl count hne hc

theorem claim5_witness :
    (ChangeLog.mk [⟨"3", "0", "0", "", "", "", "2022-01-03", "\n- c\n"⟩,
      ⟨"2", "0", "0", "", "", "", "2022-01-02", ""⟩,
      ⟨"1", "0", "0", "", "", "", "2022-01-01", "\n- a\n"⟩]).format_last_items 2 =
    "\n" ++ renderBlocks (([⟨"3", "0", "0", "", "", "", "2022-01-03", "\n- c\n"⟩,
      ⟨"2", "0", "0", "", "", "", "2022-01-02", ""⟩,
      ⟨"1", "0", "0", "", "", "", "2022-01-01", "\n- a\n"⟩] :
        List VersionNote).take (Int.toNat 2)) :=
  claim5_format_blocks _ 2 (by decide) (by decide)

/-- C6: for every ChangeLog and positive count, format_last_items
renders at most count blocks, and renders the empty string on an empty
ChangeLog. -/
theorem claim6_at_most_count_blocks (cl : ChangeLog) (count : Int)
    (hc : 1 ≤ count) :
    (cl.versions = [] → cl.format_last_items count = "") ∧
    (cl.versions ≠ [] → ∃ l, l.length ≤ count.toNat ∧
      cl.format_last_items count = "\n" ++ renderBlocks l) := by
  constructor
  · intro h
    unfold ChangeLog.format_last_items
    simp [ChangeLog.empty, h]
  · intro hne
    refine ⟨cl.versions.take count.toNat, ?_, ?_⟩
    · rw [List.length_take]
      exact min_le_left _ _
    · exact format_last_items_eq cl count hne hc

theorem claim6_witness :
    (ChangeLog.mk []).format_last_items 4 = "" ∧
    ∃ l, l.length ≤ Int.toNat 4 ∧
      (ChangeLog.mk [⟨"5", "1", "0", "", "", "", "2024-05-01", "\n- z\n"⟩,
        ⟨"5", "0", "0", "", "", "", "2024-04-01", "\n- y\n"⟩]).format_last_items 4 =
      "\n" ++ renderBlocks l :=
  ⟨(claim6_at_most_count_blocks ⟨[]⟩ 4 (by decide)).1 rfl,
   (claim6_at_most_count_blocks
     ⟨[⟨"5", "1", "0", "", "", "", "2024-05-01", "\n- z\n"⟩,
       ⟨"5", "0", "0", "", "", "", "2024-04-01", "\n- y\n"⟩]⟩ 4 (by decide)).2
     (by decide)⟩

/-- C10: on a non-empty ChangeLog, a count of zero or below still
emits the first entry's block, because the loop checks the counter
only after a block has been written; the result is never the empty
string for a non-empty ChangeLog. -/
theorem claim10_nonpositive_count_emits_first (cl : ChangeLog)
    (v : VersionNote) (rest : List VersionNote) (count : Int)
    (h : cl.versions = v :: rest) (hc : count ≤ 0) :
    cl.format_last_items count = "\n" ++ versionBlock v ∧
      cl.format_last_items count ≠ "" := by
  have hemp : cl.empty = false := by simp [ChangeLog.empty, h]
  have heq : cl.format_last_items count = "\n" ++ versionBlock v := by
    unfold ChangeLog.format_last_items
    rw [hemp]
    simp only [Bool.false_eq_true, if_false]
    rw [h]
    unfold formatLoop
    rw [if_pos (by push_cast; omega)]
  refine ⟨heq, ?_⟩
  rw [heq]
  intro habs
  have hd := congrArg String.data habs
  rw [String.data_append] at hd
  have : ('\n' :: (versionBlock v).data : List Char) = [] := hd
  exact absurd this (by simp)

theorem claim10_witness :
    (ChangeLog.mk [⟨"6", "0", "0", "", "", "", "2025-01-01", "\n- w\n"⟩]).format_last_items 0 =
      "\n" ++ versionBlock ⟨"6", "0", "0", "", "", "", "2025-01-01", "\n- w\n"⟩ ∧
    (ChangeLog.mk [⟨"6", "0", "0", "", "", "", "2025-01-01", "\n- w\n"⟩]).format_last_items 0 ≠
      "" :=
  claim10_nonpositive_count_emits_first _ _ [] 0 rfl (by decide)

/-- A successful numeric group capture is a non-empty string of
digits. -/
theorem matchNum_shape {s : List Char} {t : String} {r : List Char}
    (h : matchNum s = some (t, r)) :
    t ≠ "" ∧ ∀ c ∈ t.data, c.isDigit = true := by
  match s with
  | [] => simp [matchNum] at h
  | c :: cs =>
    simp only [matchNum] at h
    by_cases h0 : c = '0'
    · rw [if_pos h0] at h
      simp only [Option.some.injEq, Prod.mk.injEq] at h
      obtain ⟨h1, -⟩ := h
      subst h1
      exact ⟨by decide, by decide⟩
    · rw [if_neg h0] at h
      by_cases hd : c.isDigit
      · rw [if_pos hd] at h
        simp only [Option.some.injEq, Prod.mk.injEq] at h
        obtain ⟨h1, -⟩ := h
        subst h1
        constructor
        · intro habs
          have := congrArg String.data habs
          simp at this
        · intro x hx
          have hx' : x ∈ c :: cs.takeWhile Char.isDigit := hx
          rcases List.mem_cons.mp hx' with rfl | hx''
          · exact hd
          · exact List.mem_takeWhile_imp hx''
      · rw [if_neg hd] at h
        simp at h

/-- A successful major group capture is either the exceptional "v0" or
a non-empty string of digits. -/
theorem matchMajor_shape {s : List Char} {t : String} {r : List Char}
    (h : matchMajor s = some (t, r)) :
    t = "v0" ∨ (t ≠ "" ∧ ∀ c ∈ t.data, c.isDigit = true) := by
  unfold matchMajor at h
  by_cases h2 : s.take 2 = ['v', '0']
  · rw [if_pos h2] at h
    simp only [Option.some.injEq, Prod.mk.injEq] at h
    exact Or.inl h.1.symm
  · rw [if_neg h2] at h
    exact Or.inr (matchNum_shape h)

/-- Every capture tuple produced by one attempted match has the major,
minor and patch groups of the shapes forced by the three numeric
subpatterns. -/
theorem matchAt_shape {s : List Char} {vn : VersionNote} {r : List Char}
    (h : matchAt s = some (vn, r)) :
    (vn.major = "v0" ∨ (vn.major ≠ "" ∧ ∀ c ∈ vn.major.data, c.isDigit = true)) ∧
    (vn.minor ≠ "" ∧ ∀ c ∈ vn.minor.data, c.isDigit = true) ∧
    (vn.patch ≠ "" ∧ ∀ c ∈ vn.patch.data, c.isDigit = true) := by
  unfold matchAt at h
  simp only [Option.bind_eq_some, Option.map_eq_some'] at h
  obtain ⟨m1, hm1, r2, hr2, m2, hm2, r4, hr4, m3, hm3, t, ht, heq⟩ := h
  simp only [Prod.mk.injEq] at heq
  obtain ⟨hvn, -⟩ := heq
  subst hvn
  exact ⟨matchMajor_shape hm1, matchNum_shape hm2, matchNum_shape hm3⟩

/-- Every tuple the findall scan collects comes from one successful
attempted match. -/
theorem findallAux_mem :
    ∀ (fuel : Nat) (p1 p2 : Char) (s : List Char) (vn : VersionNote),
      vn ∈ findallAux fuel p1 p2 s → ∃ t r, matchAt t = some (vn, r) := by
  intro fuel
  induction fuel with
  | zero => intro p1 p2 s vn h; simp [findallAux] at h
  | succ n ih =>
    intro p1 p2 s vn h
    match s with
    | [] => simp [findallAux] at h
    | c :: rest =>
      simp only [findallAux] at h
      by_cases hpp : p1 = '#' ∧ p2 = '#'
      · rw [if_pos hpp] at h
        rcases hm : matchAt (c :: rest) with _ | ⟨vn', rest'⟩
        · rw [hm] at h
          exact ih _ _ _ _ h
        · rw [hm] at h
          simp only [List.mem_cons] at h
          rcases h with rfl | h
          · exact ⟨c :: rest, rest', hm⟩
          · exact ih _ _ _ _ h
      · rw [if_neg hpp] at h
        exact ih _ _ _ _ h

/-- Every entry of a parsed ChangeLog satisfies the group shapes. -/
theorem parsed_entry_shape (content : String) (vn : VersionNote)
    (h : vn ∈ (ChangeLog.parse content).versions) :
    (vn.major = "v0" ∨ (vn.major ≠ "" ∧ ∀ c ∈ vn.major.data, c.isDigit = true)) ∧
    (vn.minor ≠ "" ∧ ∀ c ∈ vn.minor.data, c.isDigit = true) ∧
    (vn.patch ≠ "" ∧ ∀ c ∈ vn.patch.data, c.isDigit = true) := by
  obtain ⟨t, r, hm⟩ := findallAux_mem _ _ _ _ _ h
  exact matchAt_shape hm

/-- C3: parsing the bracketed prerelease document yields exactly one
entry with major "10", minor "1", patch "0", prerelease "beta1", date
"2021/02/08", is_prerelease true, and text the three bullet lines
joined by newlines with no leading or trailing blank lines. -/
theorem claim3_prerelease_scenario :
    (ChangeLog.parse docBeta).versions.map VersionNote.major = ["10"] ∧
    (ChangeLog.parse docBeta).versions.map VersionNote.minor = ["1"] ∧
    (ChangeLog.parse docBeta).versions.map VersionNote.patch = ["0"] ∧
    (ChangeLog.parse docBeta).versions.map VersionNote.prerelease = ["beta1"] ∧
    (ChangeLog.parse docBeta).versions.map VersionNote.date = ["2021/02/08"] ∧
    (ChangeLog.parse docBeta).versions.map VersionNote.is_prerelease = [true] ∧
    (ChangeLog.parse docBeta).versions.map VersionNote.text =
      [some "- Add new feature\n- Fix bug\n- Remove old code"] := by
  decide

/-- C4: parsing the document with an Unreleased section and one
released section produces exactly one entry, the Unreleased heading
matching nothing, and find "10.0.1" has text "- End of year
version". -/
theorem claim4_unreleased_excluded :
    (ChangeLog.parse docUnreleased).versions.length = 1 ∧
    ((ChangeLog.parse docUnreleased).find "10.0.1").map VersionNote.text =
      some (some "- End of year version") := by
  decide

/-- C8 as stated is refuted: the plain header matches, but prefixing
its nonzero major with v yields a document with no match at all. -/
theorem claim8_counterexample :
    (ChangeLog.parse docPlainOne).versions.length = 1 ∧
    (ChangeLog.parse docVeeOne).versions = [] := by
  decide

/-- C8 amended: the v prefix is accepted only for major version 0;
every parsed entry whose major group starts with the letter v has
major exactly "v0" (and such v-prefixed zero-major headers do
match). -/
theorem claim8_v_prefix_only_zero (content : String) (vn : VersionNote)
    (h : vn ∈ (ChangeLog.parse content).versions)
    (hv : vn.major.data.head? = some 'v') : vn.major = "v0" := by
  obtain ⟨t, r, hm⟩ := findallAux_mem _ _ _ _ _ h
  rcases (matchAt_shape hm).1 with h1 | ⟨hne, hdig⟩
  · exact h1
  · exfalso
    rcases hd : vn.major.data with _ | ⟨c, cs⟩
    · rw [hd] at hv
      simp at hv
    · rw [hd] at hv
      simp only [List.head?_cons, Option.some.injEq] at hv
      subst hv
      have := hdig 'v' (by rw [hd]; exact List.mem_cons_self _ _)
      simp at this

theorem claim8_witness :
    (⟨"v0", "1", "0", "", "", "", "2021-01-01", "\n"⟩ : VersionNote) ∈
      (ChangeLog.parse docVeeZero).versions ∧
    VersionNote.major ⟨"v0", "1", "0", "", "", "", "2021-01-01", "\n"⟩ = "v0" :=
  ⟨by decide,
   claim8_v_prefix_only_zero docVeeZero
     ⟨"v0", "1", "0", "", "", "", "2021-01-01", "\n"⟩ (by decide) (by decide)⟩

/-- C9 as stated is refuted: this document produces a match whose
major group is "v0", which is not a string of digits. -/
theorem claim9_counterexample :
    (ChangeLog.parse docVeeZeroB).versions.map VersionNote.major = ["v0"] ∧
    ¬ ("v0".data.all Char.isDigit = true) := by
  decide

/-- C9 amended: in every tuple the pattern matcher produces, minor and
patch are present, non-empty, numeric strings of digits only, and
major is present and is either such a numeric string or exactly "v0"
(the optional v prefix being captured into the major group). -/
theorem claim9_groups_numeric (content : String) (vn : VersionNote)
    (h : vn ∈ (ChangeLog.parse content).versions) :
    (vn.major = "v0" ∨ (vn.major ≠ "" ∧ ∀ c ∈ vn.major.data, c.isDigit = true)) ∧
    (vn.minor ≠ "" ∧ ∀ c ∈ vn.minor.data, c.isDigit = true) ∧
    (vn.patch ≠ "" ∧ ∀ c ∈ vn.patch.data, c.isDigit = true) :=
  parsed_entry_shape content vn h

theorem claim9_witness :
    (⟨"3", "2", "1", "", "", "", "2020-12-31", "\nstuff\n"⟩ : VersionNote).minor ≠ "" ∧
    ∀ c ∈ (⟨"3", "2", "1", "", "", "", "2020-12-31", "\nstuff\n"⟩ : VersionNote).minor.data,
      c.isDigit = true :=
  (claim9_groups_numeric docNumeric
    ⟨"3", "2", "1", "", "", "", "2020-12-31", "\nstuff\n"⟩ (by decide)).2.1
